import Mathlib

/-!
Shallow embedding of the kabalist API core (src/api/src/list.rs and
src/api/src/pantry.rs) over an explicit database state.

The persisted shape is five relations: lists, list_sharing, lists_content,
pantry_content, history.  SERIAL id columns are modelled by counters in the
state (PostgreSQL sequences hand out globally fresh integers); uuid
generation for list ids is likewise modelled by a counter, since the only
property used is freshness.  SQL statements are translated query by query;
a sqlx transaction becomes a single pure state update (all-or-nothing by
construction).
-/

namespace Kabalist

/-- A row of the `lists` relation: list id, owner, name and the nullable
`pub` flag (`row.pub.unwrap_or(false)` in the code). -/
structure ListRow where
  id : Nat
  owner : Nat
  name : String
  pub : Option Bool
deriving Repr, DecidableEq

/-- A row of `list_sharing`: the list, the grantee (`shared`) and the
`readonly` flag. -/
structure ShareRow where
  list : Nat
  shared : Nat
  readonly : Bool
deriving Repr, DecidableEq

/-- A row of `lists_content`: list id, item id (SERIAL), name, nullable
free-text amount, and the nullable `from_pantry` back-reference. -/
structure ContentRow where
  list : Nat
  id : Nat
  name : String
  amount : Option String
  from_pantry : Option Nat
deriving Repr, DecidableEq

/-- A row of `pantry_content`: list id, item id (SERIAL), name, current
amount and target amount (integer columns). -/
structure PantryRow where
  list : Nat
  item : Nat
  name : String
  amount : Int
  target : Int
deriving Repr, DecidableEq

/-- A row of `history`, keyed on (list, creator, name) where the name
column is `citext` (case-insensitive). -/
structure HistoryRow where
  list : Nat
  creator : Nat
  name : String
  last_used : Nat
deriving Repr, DecidableEq

/-- The database state: the five relations plus the id-generating
counters (SERIAL sequences / uuid generation). -/
structure Db where
  lists : List ListRow
  list_sharing : List ShareRow
  lists_content : List ContentRow
  pantry_content : List PantryRow
  history : List HistoryRow
  nextListId : Nat
  nextItemId : Nat
  nextPantryId : Nat
deriving Repr, DecidableEq

/-- The empty database. -/
def Db.empty : Db := ⟨[], [], [], [], [], 0, 0, 0⟩

instance {ε α : Type} [DecidableEq ε] [DecidableEq α] :
    DecidableEq (Except ε α) := fun a b =>
  match a, b with
  | .ok x, .ok y =>
    if h : x = y then .isTrue (by rw [h]) else .isFalse (by simp [h])
  | .error x, .error y =>
    if h : x = y then .isTrue (by rw [h]) else .isFalse (by simp [h])
  | .ok _, .error _ => .isFalse (by simp)
  | .error _, .ok _ => .isFalse (by simp)

/-- The error taxonomy surfaced by the handlers in scope. -/
inductive Error where
  | NotFound
  | NotAuthorized
  | ListAlreadyExists
  | InternalError
deriving Repr, DecidableEq

/-- `SELECT ... FROM lists WHERE id = $1` (first row, if any). -/
def find_list (db : Db) (id : Nat) : Option ListRow :=
  db.lists.find? (fun l => l.id == id)

/-- `SELECT ... FROM list_sharing WHERE list = $1 AND shared = $2`
(first row, if any). -/
def find_share (db : Db) (list user : Nat) : Option ShareRow :=
  db.list_sharing.find? (fun s => s.list == list && s.shared == user)

/-- Modelled from the spec: `check_list` lives in the crate root, which is
not among the provided sources.  Per §4.1, `requireAccess` fails with
`NotFound` when the list does not exist, succeeds for the owner, and
otherwise requires a share row whose `readonly` flag satisfies the write
requirement, failing with `NotAuthorized`. -/
def check_list (db : Db) (user list : Nat) (needsWrite : Bool) :
    Except Error Unit :=
  match find_list db list with
  | none => .error .NotFound
  | some l =>
    if l.owner == user then .ok ()
    else
      match find_share db list user with
      | none => .error .NotAuthorized
      | some s =>
        if needsWrite && s.readonly then .error .NotAuthorized else .ok ()

/-- Modelled from the spec: `is_owner` lives in the crate root, which is
not among the provided sources.  Per §4.1, `requireOwner` fails with
`NotAuthorized` unless the caller is the owner (and with `NotFound` when
the list does not exist). -/
def is_owner (db : Db) (user list : Nat) : Except Error Unit :=
  match find_list db list with
  | none => .error .NotFound
  | some l => if l.owner == user then .ok () else .error .NotAuthorized

/-- `create_list` (list.rs): counts lists with the caller's owner id and
the requested name; zero lets the insert proceed, otherwise the handler
returns `ListAlreadyExists`.  The insert generates a fresh uuid. -/
def create_list (db : Db) (user : Nat) (name : String) :
    Except Error (Nat × Db) :=
  if (db.lists.filter (fun l => l.owner == user && l.name == name)).length
      == 0 then
    .ok (db.nextListId,
      { db with
          lists := db.lists ++ [⟨db.nextListId, user, name, none⟩],
          nextListId := db.nextListId + 1 })
  else .error .ListAlreadyExists

/-- An item of a `ReadListResponse`. -/
structure Item where
  id : Nat
  name : String
  amount : Option String
deriving Repr, DecidableEq

/-- The payload of a successful `read_list`. -/
structure ReadListResponse where
  items : List Item
  readonly : Bool
deriving Repr, DecidableEq

/-- `read_list` (list.rs): read access check, then the list's content
rows; the `readonly` flag is the caller's share row's flag, defaulting to
`false` when the stream yields no row. -/
def read_list (db : Db) (user id : Nat) : Except Error ReadListResponse := do
  let _ ← check_list db user id false
  let items := (db.lists_content.filter (fun r => r.list == id)).map
    (fun r => Item.mk r.id r.name r.amount)
  let readonly :=
    match find_share db id user with
    | some s => s.readonly
    | none => false
  .ok ⟨items, readonly⟩

/-- Case folding applied by the `citext` type of `history.name`. -/
def fold_name (s : String) : String := ⟨s.data.map Char.toLower⟩

/-- Does a history row match the upsert key (list, creator, citext name)? -/
def history_key (list creator : Nat) (name : String) (r : HistoryRow) :
    Bool :=
  r.list == list && r.creator == creator && fold_name r.name == fold_name name

/-- The `INSERT ... ON CONFLICT (list, creator, name) DO UPDATE SET
last_used = now()` statement of `add_list`. -/
def history_upsert (h : List HistoryRow) (list creator : Nat)
    (name : String) (now : Nat) : List HistoryRow :=
  if h.any (history_key list creator name) then
    h.map (fun r =>
      if history_key list creator name r then { r with last_used := now }
      else r)
  else h ++ [⟨list, creator, name, now⟩]

/-- `add_list` (list.rs): write access check, then in one transaction the
content insert (fresh SERIAL id, `from_pantry` NULL) and the history
upsert; `now` stands for the database clock. -/
def add_list (db : Db) (user id : Nat) (name : String)
    (amount : Option String) (now : Nat) : Except Error (Nat × Db) := do
  let _ ← check_list db user id true
  let itemId := db.nextItemId
  .ok (itemId,
    { db with
        lists_content :=
          db.lists_content ++ [⟨id, itemId, name, amount, none⟩],
        history := history_upsert db.history id user name now,
        nextItemId := itemId + 1 })

/-- `update_item` (list.rs): write access check, then one UPDATE per
supplied field, each matching `list = $2 AND id = $3`; the handler acks
regardless of how many rows matched. -/
def update_item (db : Db) (user list item : Nat)
    (name amount : Option String) : Except Error Db := do
  let _ ← check_list db user list true
  let step1 :=
    match name with
    | none => db.lists_content
    | some n =>
      db.lists_content.map (fun r =>
        if r.list == list && r.id == item then { r with name := n } else r)
  let step2 :=
    match amount with
    | none => step1
    | some a =>
      step1.map (fun r =>
        if r.list == list && r.id == item then { r with amount := some a }
        else r)
  .ok { db with lists_content := step2 }

/-- Accumulating decimal-digit parse of a character list; any non-digit
character yields no value. -/
def parse_digits : List Char → Nat → Option Nat
  | [], acc => some acc
  | c :: cs, acc =>
    if c.isDigit then parse_digits cs (acc * 10 + (c.toNat - Char.toNat '0'))
    else none

/-- Modelled from the spec: `convert_to_integer` is a database function
defined in the migrations, which are not among the provided sources.  Per
§9, `parseQuantity` parses free text to an integer and any non-numeric or
empty input yields no value (the SQL wraps it in `COALESCE(_, 0)`). -/
def convert_to_integer (s : String) : Option Int :=
  match s.data with
  | [] => none
  | '-' :: c :: cs => (parse_digits (c :: cs) 0).map (fun n => -(n : Int))
  | l => (parse_digits l 0).map (fun n => (n : Int))

/-- The scalar subquery of `delete_item`'s UPDATE:
`COALESCE(convert_to_integer(lists_content.amount), 0)` for the addressed
row, NULL-amount included. -/
def credit_of (r : ContentRow) : Int :=
  (r.amount.bind convert_to_integer).getD 0

/-- `delete_item` (list.rs): write access check, then in one transaction
an UPDATE crediting `pantry_content.amount` for rows whose `item` equals
the addressed row's `from_pantry` (no rows when the subquery is NULL),
followed by the DELETE of the addressed content row. -/
def delete_item (db : Db) (user list item : Nat) : Except Error Db := do
  let _ ← check_list db user list true
  let addressed :=
    db.lists_content.find? (fun r => r.list == list && r.id == item)
  let pantry :=
    match addressed with
    | none => db.pantry_content
    | some row =>
      match row.from_pantry with
      | none => db.pantry_content
      | some p =>
        db.pantry_content.map (fun pr =>
          if pr.item == p then { pr with amount := pr.amount + credit_of row }
          else pr)
  .ok { db with
          pantry_content := pantry,
          lists_content :=
            db.lists_content.filter
              (fun r => !(r.list == list && r.id == item)) }

/-- `delete_list` (list.rs): owner check, then in one transaction the
DELETEs from `list_sharing`, `lists_content`, `history` and `lists`.
(The handler issues no DELETE against `pantry_content`.) -/
def delete_list (db : Db) (user id : Nat) : Except Error Db := do
  let _ ← is_owner db user id
  .ok { db with
          list_sharing := db.list_sharing.filter (fun s => !(s.list == id)),
          lists_content := db.lists_content.filter (fun r => !(r.list == id)),
          history := db.history.filter (fun h => !(h.list == id)),
          lists := db.lists.filter (fun l => !(l.id == id)) }

/-- `set_public` (list.rs): owner check, then `UPDATE lists SET pub = true`. -/
def set_public (db : Db) (user id : Nat) : Except Error Db := do
  let _ ← is_owner db user id
  .ok { db with
          lists := db.lists.map (fun l =>
            if l.id == id then { l with pub := some true } else l) }

/-- `remove_public` (list.rs): owner check, then `UPDATE lists SET pub = false`. -/
def remove_public (db : Db) (user id : Nat) : Except Error Db := do
  let _ ← is_owner db user id
  .ok { db with
          lists := db.lists.map (fun l =>
            if l.id == id then { l with pub := some false } else l) }

/-- The error type of the public (unauthenticated) list view. -/
inductive PublicError where
  | NotFound
  | InternalError
deriving Repr, DecidableEq

/-- `get_public_list` (list.rs): `fetch_one` on the `pub` flag — a missing
row surfaces as a sqlx error, and `impl From<sqlx::Error> for PublicError`
maps every sqlx error to `InternalError`; an existing list whose flag is
unset (or NULL) yields `NotFound`; otherwise the rendered (name, amount)
rows are returned. -/
def get_public_list (db : Db) (id : Nat) :
    Except PublicError (List (String × Option String)) :=
  match find_list db id with
  | none => .error .InternalError
  | some l =>
    if l.pub.getD false then
      .ok ((db.lists_content.filter (fun r => r.list == id)).map
        (fun r => (r.name, r.amount)))
    else .error .NotFound

/-- An item of a `GetPantryResponse`. -/
structure PantryItem where
  id : Nat
  name : String
  amount : Int
  target : Int
deriving Repr, DecidableEq

/-- `get_pantry` (pantry.rs): read access check, then the list's pantry
rows. -/
def get_pantry (db : Db) (user list : Nat) :
    Except Error (List PantryItem) := do
  let _ ← check_list db user list false
  .ok ((db.pantry_content.filter (fun r => r.list == list)).map
    (fun r => PantryItem.mk r.item r.name r.amount r.target))

/-- `add_to_pantry` (pantry.rs): write access check, then
`INSERT INTO pantry_content (list, name, target)`; the amount column is
left to its default, which per the spec's examples is 0 (the request type
is not among the provided sources). -/
def add_to_pantry (db : Db) (user list : Nat) (name : String)
    (target : Int) : Except Error Db := do
  let _ ← check_list db user list true
  .ok { db with
          pantry_content :=
            db.pantry_content ++ [⟨list, db.nextPantryId, name, 0, target⟩],
          nextPantryId := db.nextPantryId + 1 }

/-- `set_pantry_item` (pantry.rs): write access check, then
`UPDATE pantry_content SET amount = COALESCE($1, amount),
target = COALESCE($2, target) WHERE list = $3 AND item = $4`.  The request
type is not among the provided sources; per §4.3 amount and target are
each independently settable integers, absent fields left unchanged. -/
def set_pantry_item (db : Db) (user list item : Nat)
    (amount target : Option Int) : Except Error Db := do
  let _ ← check_list db user list true
  .ok { db with
          pantry_content := db.pantry_content.map (fun r =>
            if r.list == list && r.item == item then
              { r with amount := amount.getD r.amount,
                       target := target.getD r.target }
            else r) }

/-- `delete_pantry_item` (pantry.rs): write access check, then in one
transaction the DELETE of content rows with `from_pantry = $1 AND
list = $2` followed by the DELETE of the pantry row itself. -/
def delete_pantry_item (db : Db) (user list item : Nat) :
    Except Error Db := do
  let _ ← check_list db user list true
  .ok { db with
          lists_content :=
            db.lists_content.filter
              (fun r => !(r.from_pantry == some item && r.list == list)),
          pantry_content :=
            db.pantry_content.filter
              (fun r => !(r.item == item && r.list == list)) }

/-- The rows inserted by `refill_pantry`'s INSERT ... SELECT, one per
selected pantry row, with consecutive SERIAL ids starting at `firstId`:
name copied, amount `(target - amount)` rendered as text, `from_pantry`
set to the pantry item id. -/
def refill_new_rows : List PantryRow → Nat → List ContentRow
  | [], _ => []
  | r :: rs, firstId =>
    ⟨r.list, firstId, r.name, some (toString (r.target - r.amount)),
      some r.item⟩ :: refill_new_rows rs (firstId + 1)

/-- `refill_pantry` (pantry.rs): write access check, then
`INSERT INTO lists_content (list, name, amount, from_pantry)
SELECT list, name, (target - amount), item FROM pantry_content
WHERE amount < target AND list = $1`. -/
def refill_pantry (db : Db) (user list : Nat) : Except Error Db := do
  let _ ← check_list db user list true
  let rows := db.pantry_content.filter
    (fun r => decide (r.amount < r.target) && r.list == list)
  .ok { db with
          lists_content :=
            db.lists_content ++ refill_new_rows rows db.nextItemId,
          nextItemId := db.nextItemId + rows.length }

/-- One caller-visible mutating operation of the embedded API, with its
arguments (`now` stands for the database clock during `add_list`). -/
inductive Op where
  | createList (user : Nat) (name : String)
  | addItem (user list : Nat) (name : String) (amount : Option String)
      (now : Nat)
  | updateItem (user list item : Nat) (name amount : Option String)
  | deleteItem (user list item : Nat)
  | deleteList (user list : Nat)
  | setPublic (user list : Nat)
  | removePublic (user list : Nat)
  | addPantry (user list : Nat) (name : String) (target : Int)
  | editPantry (user list item : Nat) (amount target : Option Int)
  | deletePantry (user list item : Nat)
  | refill (user list : Nat)
deriving Repr, DecidableEq

/-- The state transition of an operation (result payloads discarded). -/
def applyOp (op : Op) (db : Db) : Except Error Db :=
  match op with
  | .createList u n => (create_list db u n).map (fun p => p.2)
  | .addItem u l n a now => (add_list db u l n a now).map (fun p => p.2)
  | .updateItem u l i n a => update_item db u l i n a
  | .deleteItem u l i => delete_item db u l i
  | .deleteList u l => delete_list db u l
  | .setPublic u l => set_public db u l
  | .removePublic u l => remove_public db u l
  | .addPantry u l n t => add_to_pantry db u l n t
  | .editPantry u l i a t => set_pantry_item db u l i a t
  | .deletePantry u l i => delete_pantry_item db u l i
  | .refill u l => refill_pantry db u l

/-- A database state reachable from the empty database by successful
operations. -/
inductive Reachable : Db → Prop where
  | init : Reachable Db.empty
  | step : ∀ (op : Op) (db db' : Db), Reachable db → applyOp op db = .ok db' →
      Reachable db'

/-- Referential integrity of `from_pantry`: every non-null reference on a
content row resolves to a pantry row with that item id in the same list. -/
def Inv (db : Db) : Prop :=
  ∀ r ∈ db.lists_content, ∀ p, r.from_pantry = some p →
    ∃ pr ∈ db.pantry_content, pr.item = p ∧ pr.list = r.list

/-! ### Helper lemmas -/

theorem map_eq_self_of_id {α : Type} {l : List α} {f : α → α}
    (h : ∀ x ∈ l, f x = x) : l.map f = l := by
  induction l with
  | nil => rfl
  | cons a t ih =>
    simp only [List.map_cons]
    rw [h a (by simp), ih (fun x hx => h x (by simp [hx]))]

theorem bind_ok {α : Type} (f : Unit → Except Error α) :
    (Except.ok () >>= f) = f () := rfl

theorem bind_err {α : Type} (e : Error) (f : Unit → Except Error α) :
    ((Except.error e : Except Error Unit) >>= f) = .error e := rfl

theorem check_list_write_ok {db : Db} {u l : Nat}
    (h : check_list db u l true = .ok ()) :
    ∃ row, find_list db l = some row := by
  unfold check_list at h
  cases hf : find_list db l with
  | none => rw [hf] at h; cases h
  | some row => exact ⟨row, rfl⟩

/-! ### C6: list-name uniqueness is scoped per owner -/

/-- C6: `createList(owner, name)` fails with `AlreadyExists` iff that same
owner already has a list with that name; a same-named list of a different
owner does not trigger the failure, and a successful create appends a list
owned by the caller with the requested name. -/
theorem create_list_unique_per_owner (db : Db) (user : Nat) (name : String) :
    (create_list db user name = .error .ListAlreadyExists ↔
      ∃ l ∈ db.lists, l.owner = user ∧ l.name = name) ∧
    (∀ id db', create_list db user name = .ok (id, db') →
      db'.lists = db.lists ++ [⟨id, user, name, none⟩]) := by
  have key :
      ((db.lists.filter (fun l => l.owner == user && l.name == name)).length
          == 0) = true ↔
      ¬ ∃ l ∈ db.lists, l.owner = user ∧ l.name = name := by
    simp [List.length_eq_zero, List.filter_eq_nil_iff]
  constructor
  · constructor
    · intro h
      unfold create_list at h
      by_cases hb : ((db.lists.filter
          (fun l => l.owner == user && l.name == name)).length == 0) = true
      · rw [if_pos hb] at h
        cases h
      · by_contra hex
        exact hb (key.mpr hex)
    · intro hex
      unfold create_list
      have hb : ¬ ((db.lists.filter
          (fun l => l.owner == user && l.name == name)).length == 0) = true :=
        fun hb => (key.mp hb) hex
      rw [if_neg hb]
  · intro id db' h
    unfold create_list at h
    by_cases hb : ((db.lists.filter
        (fun l => l.owner == user && l.name == name)).length == 0) = true
    · rw [if_pos hb] at h
      cases h
      rfl
    · rw [if_neg hb] at h
      cases h

/-- Database with one list named "g" owned by user 8. -/
def c6Db : Db := ⟨[⟨0, 8, "g", none⟩], [], [], [], [], 1, 0, 0⟩

/-- Result of user 7 (a different owner) creating a list named "g". -/
def c6Db' : Db :=
  ⟨[⟨0, 8, "g", none⟩, ⟨1, 7, "g", none⟩], [], [], [], [], 2, 0, 0⟩

theorem create_list_unique_per_owner_witness :
    (create_list c6Db 8 "g" = .error .ListAlreadyExists ∧
      c6Db'.lists = c6Db.lists ++ [⟨1, 7, "g", none⟩]) :=
  ⟨(create_list_unique_per_owner c6Db 8 "g").1.mpr
      ⟨⟨0, 8, "g", none⟩, by decide, by decide, by decide⟩,
    (create_list_unique_per_owner c6Db 7 "g").2 1 c6Db' (by decide)⟩

/-! ### C4: the public view's two failure cases -/

/-- Database with one non-public list (id 0) and no list with id 1. -/
def c4Db : Db := ⟨[⟨0, 9, "l", none⟩], [], [], [], [], 1, 0, 0⟩

/-- C4 counterexample: on a concrete state, `getPublicList` of an existing
non-public list yields `NotFound`, while `getPublicList` of a nonexistent
id yields `InternalError` — the two outcomes differ, refuting the claim
that both cases produce the same single `NotFound` outcome. -/
theorem get_public_list_distinguishable_cex :
    get_public_list c4Db 0 = .error .NotFound ∧
    get_public_list c4Db 1 = .error .InternalError ∧
    get_public_list c4Db 1 ≠ .error .NotFound := by
  refine ⟨by decide, by decide, by decide⟩

/-- C4 amended: `getPublicList` on an existing list whose public flag is
not set yields `NotFound`; on a nonexistent list id the single-row fetch
fails and the sqlx error is mapped to `InternalError`, so the two cases
are distinguishable to the caller. -/
theorem get_public_list_outcomes (db : Db) (id : Nat) :
    (find_list db id = none →
      get_public_list db id = .error .InternalError) ∧
    (∀ l, find_list db id = some l → l.pub.getD false = false →
      get_public_list db id = .error .NotFound) := by
  constructor
  · intro h
    unfold get_public_list
    rw [h]
  · intro l h hpub
    unfold get_public_list
    rw [h]
    simp [hpub]

theorem get_public_list_outcomes_witness :
    (get_public_list c4Db 1 = .error .InternalError ∧
      get_public_list c4Db 0 = .error .NotFound) :=
  ⟨(get_public_list_outcomes c4Db 1).1 (by decide),
    (get_public_list_outcomes c4Db 0).2 ⟨0, 9, "l", none⟩ (by decide)
      (by decide)⟩

/-! ### C5: update/delete of a nonexistent item id -/

/-- Database with one list (id 0, owner 7) and no content rows. -/
def c5Db : Db := ⟨[⟨0, 7, "l", none⟩], [], [], [], [], 1, 0, 0⟩

/-- C5 counterexample: on a concrete state, with write access, updating or
deleting item id 99 — which does not exist in list 0 — succeeds with an
ack and leaves the state unchanged, rather than failing with `NotFound`
as the claim states. -/
theorem update_delete_missing_item_cex :
    update_item c5Db 7 0 99 (some "x") (some "y") = .ok c5Db ∧
    delete_item c5Db 7 0 99 = .ok c5Db ∧
    update_item c5Db 7 0 99 (some "x") (some "y") ≠ .error .NotFound ∧
    delete_item c5Db 7 0 99 ≠ .error .NotFound := by
  refine ⟨by decide, by decide, by decide, by decide⟩

/-- C5 amended: for a caller with write access, `updateItem` and
`deleteItem` on an item id that does not exist in the list succeed with an
ack and change nothing (`NotFound` arises only from the list-level access
check, not from a missing item id). -/
theorem update_delete_missing_item_acks (db : Db) (u l i : Nat)
    (n a : Option String)
    (hc : check_list db u l true = .ok ())
    (hm : ∀ r ∈ db.lists_content, ¬(r.list = l ∧ r.id = i)) :
    update_item db u l i n a = .ok db ∧ delete_item db u l i = .ok db := by
  have hrow : ∀ r ∈ db.lists_content,
      (r.list == l && r.id == i) = false := by
    intro r hr
    cases hb : (r.list == l && r.id == i) with
    | false => rfl
    | true =>
      simp only [Bool.and_eq_true, beq_iff_eq] at hb
      exact absurd hb (hm r hr)
  constructor
  · simp only [update_item, hc, bind_ok]
    cases n with
    | none =>
      cases a with
      | none => rfl
      | some aa =>
        dsimp only
        have e : db.lists_content.map (fun r =>
            if r.list == l && r.id == i then { r with amount := some aa }
            else r) = db.lists_content :=
          map_eq_self_of_id (fun r hr => by rw [hrow r hr]; rfl)
        rw [e]
    | some nn =>
      dsimp only
      have e1 : db.lists_content.map (fun r =>
          if r.list == l && r.id == i then { r with name := nn }
          else r) = db.lists_content :=
        map_eq_self_of_id (fun r hr => by rw [hrow r hr]; rfl)
      cases a with
      | none => rw [e1]
      | some aa =>
        dsimp only
        have e2 : db.lists_content.map (fun r =>
            if r.list == l && r.id == i then { r with amount := some aa }
            else r) = db.lists_content :=
          map_eq_self_of_id (fun r hr => by rw [hrow r hr]; rfl)
        rw [e1, e2]
  · simp only [delete_item, hc, bind_ok]
    have hfind : db.lists_content.find?
        (fun r => r.list == l && r.id == i) = none :=
      List.find?_eq_none.mpr (fun r hr => by rw [hrow r hr]; exact
        Bool.false_ne_true)
    have hfilter : db.lists_content.filter
        (fun r => !(r.list == l && r.id == i)) = db.lists_content :=
      List.filter_eq_self.mpr (fun r hr => by rw [hrow r hr]; rfl)
    rw [hfind, hfilter]

theorem update_delete_missing_item_acks_witness :
    update_item c5Db 7 0 99 (some "x") none = .ok c5Db ∧
    delete_item c5Db 7 0 99 = .ok c5Db :=
  update_delete_missing_item_acks c5Db 7 0 99 (some "x") none (by decide)
    (by intro r hr; cases hr)

/-! ### C10: the readonly flag of readList -/

/-- C10: a successful `readList` reports `readonly` equal to the caller's
share row's flag, defaulting to false when the caller holds no share row;
in particular a caller who passes the read check without a share row (the
owner) gets a successful read with `readonly = false`. -/
theorem read_list_readonly_flag (db : Db) (u id : Nat) :
    (∀ resp, read_list db u id = .ok resp →
      resp.readonly = ((find_share db id u).map ShareRow.readonly).getD
        false) ∧
    (check_list db u id false = .ok () → find_share db id u = none →
      ∃ items, read_list db u id = .ok ⟨items, false⟩) := by
  constructor
  · intro resp h
    cases hc : check_list db u id false with
    | error e =>
      simp only [read_list, hc, bind_err] at h
      cases h
    | ok un =>
      cases un
      simp only [read_list, hc, bind_ok] at h
      cases h
      cases hs : find_share db id u <;> simp [hs]
  · intro hc hs
    refine ⟨(db.lists_content.filter (fun r => r.list == id)).map
      (fun r => Item.mk r.id r.name r.amount), ?_⟩
    simp only [read_list, hc, bind_ok, hs]

/-- Database with list 0 owned by 7, a readonly share for user 8, and one
content row. -/
def c10Db : Db :=
  ⟨[⟨0, 7, "l", none⟩], [⟨0, 8, true⟩], [⟨0, 0, "milk", none, none⟩], [],
    [], 1, 1, 0⟩

theorem read_list_readonly_flag_witness :
    (⟨[⟨0, "milk", none⟩], true⟩ : ReadListResponse).readonly =
      ((find_share c10Db 0 8).map ShareRow.readonly).getD false ∧
    ∃ items, read_list c10Db 7 0 = .ok ⟨items, false⟩ :=
  ⟨(read_list_readonly_flag c10Db 8 0).1 ⟨[⟨0, "milk", none⟩], true⟩
      (by decide),
    (read_list_readonly_flag c10Db 7 0).2 (by decide) (by decide)⟩

/-! ### C2: quantity conservation on item delete -/

/-- C2: a successful `deleteItem` leaves the pantry row set's size
unchanged; when the deleted row carries a non-null `from_pantry`, each
pantry row with that item id has its amount increased by the credit parsed
from the deleted row's free-text amount, all other pantry rows unchanged;
a missing row or a null `from_pantry` leaves every pantry row unchanged;
and the credit is 0 for an absent or unparsable amount. -/
theorem delete_item_credit (db : Db) (u l i : Nat) (db' : Db)
    (h : delete_item db u l i = .ok db') :
    db'.pantry_content.length = db.pantry_content.length ∧
    (db.lists_content.find? (fun r => r.list == l && r.id == i) = none →
      db'.pantry_content = db.pantry_content) ∧
    (∀ row, db.lists_content.find? (fun r => r.list == l && r.id == i) =
        some row →
      (row.from_pantry = none → db'.pantry_content = db.pantry_content) ∧
      (∀ p, row.from_pantry = some p →
        ∀ pr ∈ db.pantry_content,
          (pr.item = p →
            ({ pr with amount := pr.amount + credit_of row } : PantryRow) ∈
              db'.pantry_content) ∧
          (pr.item ≠ p → pr ∈ db'.pantry_content))) ∧
    (∀ r : ContentRow, r.amount = none → credit_of r = 0) ∧
    (∀ r : ContentRow, ∀ s, r.amount = some s →
      convert_to_integer s = none → credit_of r = 0) := by
  cases hc : check_list db u l true with
  | error e =>
    simp only [delete_item, hc, bind_err] at h
    cases h
  | ok un =>
    cases un
    simp only [delete_item, hc, bind_ok] at h
    cases h
    refine ⟨?_, ?_, ?_, ?_, ?_⟩
    · cases hf : db.lists_content.find?
          (fun r => r.list == l && r.id == i) with
      | none => rfl
      | some row =>
        dsimp only
        cases hfp : row.from_pantry with
        | none => rfl
        | some p =>
          dsimp only
          exact List.length_map _ _
    · intro hf
      rw [hf]
    · intro row hf
      rw [hf]
      dsimp only
      constructor
      · intro hfp
        rw [hfp]
      · intro p hfp pr hpr
        rw [hfp]
        dsimp only
        constructor
        · intro hit
          have hb : (pr.item == p) = true := beq_iff_eq.mpr hit
          have hmem := List.mem_map_of_mem (fun pr : PantryRow =>
            if pr.item == p then
              { pr with amount := pr.amount + credit_of row }
            else pr) hpr
          simpa [hb] using hmem
        · intro hne
          have hb : (pr.item == p) = false := by
            simp [hne]
          have hmem := List.mem_map_of_mem (fun pr : PantryRow =>
            if pr.item == p then
              { pr with amount := pr.amount + credit_of row }
            else pr) hpr
          simpa [hb] using hmem
    · intro r hr
      unfold credit_of
      rw [hr]
      rfl
    · intro r s hr hconv
      unfold credit_of
      rw [hr]
      simp [hconv]

/-- Database with list 0 owned by 7, one content row linked to pantry
item 0 with amount "3", and that pantry row at amount 1, target 4. -/
def c2Db : Db :=
  ⟨[⟨0, 7, "l", none⟩], [], [⟨0, 0, "milk", some "3", some 0⟩],
    [⟨0, 0, "milk", 1, 4⟩], [], 1, 1, 1⟩

/-- `c2Db` after user 7 deletes item 0 of list 0. -/
def c2Db' : Db :=
  ⟨[⟨0, 7, "l", none⟩], [], [], [⟨0, 0, "milk", 4, 4⟩], [], 1, 1, 1⟩

theorem delete_item_credit_witness :
    ({ (⟨0, 0, "milk", 1, 4⟩ : PantryRow) with
        amount := 1 + credit_of ⟨0, 0, "milk", some "3", some 0⟩ } :
      PantryRow) ∈ c2Db'.pantry_content :=
  (((delete_item_credit c2Db 7 0 0 c2Db' (by decide)).2.2.1
      ⟨0, 0, "milk", some "3", some 0⟩ (by decide)).2 0 (by decide)
      ⟨0, 0, "milk", 1, 4⟩ (by decide)).1 (by decide)


/-! ### C1: refill is shortfall-driven -/

theorem countP_refill_new_rows (rows : List PantryRow) (k p : Nat) :
    (refill_new_rows rows k).countP (fun r => r.from_pantry == some p) =
      rows.countP (fun r => r.item == p) := by
  induction rows generalizing k with
  | nil => rfl
  | cons r rs ih =>
    simp only [refill_new_rows, List.countP_cons, ih]
    simp

theorem mem_refill_new_rows {rows : List PantryRow} {k : Nat}
    {r : ContentRow} (h : r ∈ refill_new_rows rows k) :
    ∃ pr ∈ rows, r.list = pr.list ∧ r.name = pr.name ∧
      r.amount = some (toString (pr.target - pr.amount)) ∧
      r.from_pantry = some pr.item := by
  induction rows generalizing k with
  | nil => cases h
  | cons a t ih =>
    simp only [refill_new_rows, List.mem_cons] at h
    rcases h with h | h
    · subst h
      exact ⟨a, List.mem_cons_self a t, rfl, rfl, rfl, rfl⟩
    · obtain ⟨pr, hpr, hs⟩ := ih h
      exact ⟨pr, List.mem_cons_of_mem _ hpr, hs⟩

theorem countP_item_nodup {l : List PantryRow}
    (hN : (l.map PantryRow.item).Nodup) {pr : PantryRow} (hpr : pr ∈ l)
    (q : PantryRow → Bool) :
    l.countP (fun r => (r.item == pr.item) && q r) =
      if q pr then 1 else 0 := by
  induction l with
  | nil => cases hpr
  | cons a t ih =>
    simp only [List.map_cons, List.nodup_cons] at hN
    obtain ⟨ha, ht⟩ := hN
    rw [List.countP_cons]
    rcases List.mem_cons.mp hpr with rfl | hpt
    · have hz : t.countP (fun r => (r.item == pr.item) && q r) = 0 := by
        apply List.countP_eq_zero.mpr
        intro x hx hq
        simp only [Bool.and_eq_true, beq_iff_eq] at hq
        exact ha (by rw [← hq.1]; exact List.mem_map_of_mem PantryRow.item hx)
      rw [hz]
      by_cases hq : q pr = true
      · simp [hq]
      · simp [hq]
    · have hne : a.item ≠ pr.item := by
        intro he
        exact ha (by rw [he]; exact List.mem_map_of_mem PantryRow.item hpt)
      have hh : ((a.item == pr.item) && q a) = false := by
        simp [hne]
      rw [hh]
      simp [ih ht hpt]

/-- C1: a successful `refillPantry` leaves every pantry amount unchanged,
keeps the existing content rows as a prefix, and among the appended rows
there is exactly one per pantry item of the list with `current < target`
(none for other pantry items), carrying `from_pantry` set to that item and
amount `(target - current)` of the pre-refill snapshot rendered as text. -/
theorem refill_pantry_shortfall (db : Db) (user list : Nat) (db' : Db)
    (hN : (db.pantry_content.map PantryRow.item).Nodup)
    (h : refill_pantry db user list = .ok db') :
    db'.pantry_content = db.pantry_content ∧
    db'.lists_content.take db.lists_content.length = db.lists_content ∧
    (∀ pr ∈ db.pantry_content,
      ((db'.lists_content.drop db.lists_content.length).countP
          (fun r => r.from_pantry == some pr.item) =
        if pr.list = list ∧ pr.amount < pr.target then 1 else 0) ∧
      (∀ r ∈ db'.lists_content.drop db.lists_content.length,
        r.from_pantry = some pr.item →
          r.amount = some (toString (pr.target - pr.amount)) ∧
          r.list = pr.list ∧ r.name = pr.name)) := by
  cases hc : check_list db user list true with
  | error e =>
    simp only [refill_pantry, hc, bind_err] at h
    cases h
  | ok un =>
    cases un
    simp only [refill_pantry, hc, bind_ok] at h
    cases h
    refine ⟨rfl, ?_, ?_⟩
    · exact List.take_left _ _
    · intro pr hpr
      have hdrop :
          ({ db with
              lists_content := db.lists_content ++
                refill_new_rows (db.pantry_content.filter
                  (fun r => decide (r.amount < r.target) && r.list == list))
                  db.nextItemId,
              nextItemId := db.nextItemId +
                (db.pantry_content.filter
                  (fun r => decide (r.amount < r.target) &&
                    r.list == list)).length } : Db).lists_content.drop
            db.lists_content.length =
          refill_new_rows (db.pantry_content.filter
            (fun r => decide (r.amount < r.target) && r.list == list))
            db.nextItemId := List.drop_left _ _
      rw [hdrop]
      constructor
      · rw [countP_refill_new_rows, List.countP_filter]
        rw [countP_item_nodup hN hpr
          (fun r => decide (r.amount < r.target) && r.list == list)]
        by_cases hcond : pr.list = list ∧ pr.amount < pr.target
        · rw [if_pos hcond]
          have : (decide (pr.amount < pr.target) && (pr.list == list)) =
              true := by
            simp [hcond.1, hcond.2]
          rw [if_pos this]
        · rw [if_neg hcond]
          have : (decide (pr.amount < pr.target) && (pr.list == list)) =
              false := by
            rcases Decidable.not_and_iff_or_not.mp hcond with hl | ha
            · simp [hl]
            · simp [ha]
          rw [this]
          rfl
      · intro r hr hfp
        obtain ⟨pr2, hpr2, hls, hnm, ham, hfp2⟩ := mem_refill_new_rows hr
        have hpr2' := List.mem_filter.mp hpr2
        have hitem : pr2.item = pr.item := by
          rw [hfp2] at hfp
          exact Option.some.inj hfp
        have : pr2 = pr :=
          List.inj_on_of_nodup_map hN hpr2'.1 hpr hitem
        subst this
        exact ⟨ham, hls, hnm⟩

/-- Database with list 0 owned by 7 and two pantry rows: eggs 0/12 (a
shortfall) and milk 3/2 (no shortfall). -/
def c1Db : Db :=
  ⟨[⟨0, 7, "l", none⟩], [], [],
    [⟨0, 0, "eggs", 0, 12⟩, ⟨0, 1, "milk", 3, 2⟩], [], 1, 0, 2⟩

/-- `c1Db` after user 7 refills list 0. -/
def c1Db' : Db :=
  ⟨[⟨0, 7, "l", none⟩], [], [⟨0, 0, "eggs", some "12", some 0⟩],
    [⟨0, 0, "eggs", 0, 12⟩, ⟨0, 1, "milk", 3, 2⟩], [], 1, 1, 2⟩

theorem refill_pantry_shortfall_witness :
    c1Db'.pantry_content = c1Db.pantry_content ∧
    c1Db'.lists_content.take c1Db.lists_content.length =
      c1Db.lists_content ∧
    (∀ pr ∈ c1Db.pantry_content,
      ((c1Db'.lists_content.drop c1Db.lists_content.length).countP
          (fun r => r.from_pantry == some pr.item) =
        if pr.list = 0 ∧ pr.amount < pr.target then 1 else 0) ∧
      (∀ r ∈ c1Db'.lists_content.drop c1Db.lists_content.length,
        r.from_pantry = some pr.item →
          r.amount = some (toString (pr.target - pr.amount)) ∧
          r.list = pr.list ∧ r.name = pr.name)) :=
  refill_pantry_shortfall c1Db 7 0 c1Db' (by decide) (by decide)


/-! ### C8: the history upsert of addItem -/

theorem history_upsert_countP (h : List HistoryRow) (list creator : Nat)
    (name : String) (now : Nat)
    (hK : h.countP (history_key list creator name) ≤ 1) :
    (history_upsert h list creator name now).countP
      (history_key list creator name) = 1 := by
  unfold history_upsert
  by_cases ha : h.any (history_key list creator name) = true
  · rw [if_pos ha]
    have hsame : (h.map (fun r =>
        if history_key list creator name r then { r with last_used := now }
        else r)).countP (history_key list creator name) =
        h.countP (history_key list creator name) := by
      rw [List.countP_map]
      apply List.countP_congr
      intro x hx
      by_cases hk : history_key list creator name x = true
      · simp only [Function.comp, if_pos hk]
        constructor
        · intro _; exact hk
        · intro _; exact hk
      · simp only [Function.comp, if_neg hk]
    rw [hsame]
    obtain ⟨x, hx, hk⟩ := List.any_eq_true.mp ha
    have hpos : 0 < h.countP (history_key list creator name) :=
      List.countP_pos_iff.mpr ⟨x, hx, hk⟩
    omega
  · rw [if_neg ha]
    rw [List.countP_append]
    have h0 : h.countP (history_key list creator name) = 0 := by
      apply List.countP_eq_zero.mpr
      intro x hx hk
      exact ha (List.any_eq_true.mpr ⟨x, hx, hk⟩)
    have h1 : ([⟨list, creator, name, now⟩] :
        List HistoryRow).countP (history_key list creator name) = 1 := by
      simp [List.countP_cons, history_key]
    rw [h0, h1]

/-- C8: a successful `addItem` appends exactly the new content row, and in
the same state update leaves exactly one history row keyed by (list,
creator, case-folded name) — assuming at most one existed before, the
per-key uniqueness the upsert maintains — with that row's last-used
timestamp set to the current time; rows with other keys survive unchanged,
and names equal up to case folding share the same key. -/
theorem add_list_history_upsert (db : Db) (u l : Nat) (name : String)
    (amount : Option String) (now itemId : Nat) (db' : Db)
    (hK : db.history.countP (history_key l u name) ≤ 1)
    (h : add_list db u l name amount now = .ok (itemId, db')) :
    db'.history.countP (history_key l u name) = 1 ∧
    (∀ r ∈ db'.history, history_key l u name r = true →
      r.last_used = now) ∧
    (∀ r ∈ db.history, history_key l u name r = false → r ∈ db'.history) ∧
    db'.lists_content =
      db.lists_content ++ [⟨l, itemId, name, amount, none⟩] ∧
    (∀ s : String, fold_name s = fold_name name →
      history_key l u s = history_key l u name) := by
  cases hc : check_list db u l true with
  | error e =>
    simp only [add_list, hc, bind_err] at h
    cases h
  | ok un =>
    cases un
    simp only [add_list, hc, bind_ok] at h
    cases h
    refine ⟨history_upsert_countP db.history l u name now hK, ?_, ?_, rfl,
      ?_⟩
    · intro r hr hk
      unfold history_upsert at hr
      by_cases ha : db.history.any (history_key l u name) = true
      · rw [if_pos ha] at hr
        obtain ⟨x, hx, hfx⟩ := List.mem_map.mp hr
        by_cases hkx : history_key l u name x = true
        · rw [if_pos hkx] at hfx
          rw [← hfx]
        · rw [if_neg hkx] at hfx
          rw [← hfx] at hk
          exact absurd hk hkx
      · rw [if_neg ha] at hr
        rcases List.mem_append.mp hr with hr | hr
        · exact absurd (List.any_eq_true.mpr ⟨r, hr, hk⟩) ha
        · rw [List.mem_singleton.mp hr]
    · intro r hr hk
      unfold history_upsert
      by_cases ha : db.history.any (history_key l u name) = true
      · rw [if_pos ha]
        have hmem := List.mem_map_of_mem (fun r =>
          if history_key l u name r then { r with last_used := now }
          else r) hr
        simpa [hk] using hmem
      · rw [if_neg ha]
        exact List.mem_append_left _ hr
    · intro s hs
      funext r
      unfold history_key
      rw [hs]

/-- Database with list 0 owned by 7 and a history row for "Milk" created
by 7 at time 5. -/
def c8Db : Db :=
  ⟨[⟨0, 7, "l", none⟩], [], [], [], [⟨0, 7, "Milk", 5⟩], 1, 0, 0⟩

/-- `c8Db` after user 7 adds an item named "milk" at time 9: the "Milk"
history row is updated in place (case-insensitive identity). -/
def c8Db' : Db :=
  ⟨[⟨0, 7, "l", none⟩], [], [⟨0, 0, "milk", none, none⟩], [],
    [⟨0, 7, "Milk", 9⟩], 1, 1, 0⟩

theorem add_list_history_upsert_witness :
    c8Db'.history.countP (history_key 0 7 "milk") = 1 ∧
    (∀ r ∈ c8Db'.history, history_key 0 7 "milk" r = true →
      r.last_used = 9) :=
  ⟨(add_list_history_upsert c8Db 7 0 "milk" none 9 0 c8Db' (by decide)
      (by decide)).1,
    (add_list_history_upsert c8Db 7 0 "milk" none 9 0 c8Db' (by decide)
      (by decide)).2.1⟩


/-! ### C7: referential integrity of from_pantry -/

theorem inv_general {db db' : Db}
    (hc : ∀ r ∈ db'.lists_content, ∀ p, r.from_pantry = some p →
      ∃ r0 ∈ db.lists_content, r0.from_pantry = some p ∧ r0.list = r.list)
    (hp : ∀ pr ∈ db.pantry_content, ∃ pr' ∈ db'.pantry_content,
      pr'.item = pr.item ∧ pr'.list = pr.list)
    (h : Inv db) : Inv db' := by
  intro r hr p hfp
  obtain ⟨r0, hr0, hfp0, hl0⟩ := hc r hr p hfp
  obtain ⟨pr, hpr, hit, hl⟩ := h r0 hr0 p hfp0
  obtain ⟨pr', hpr', hit', hl'⟩ := hp pr hpr
  exact ⟨pr', hpr', by rw [hit', hit], by rw [hl', hl, hl0]⟩

theorem content_map_preserves {l : List ContentRow}
    (g : ContentRow → ContentRow)
    (hg : ∀ r, (g r).from_pantry = r.from_pantry ∧ (g r).list = r.list)
    {r : ContentRow} (hr : r ∈ l.map g) :
    ∃ r0 ∈ l, r.from_pantry = r0.from_pantry ∧ r.list = r0.list := by
  obtain ⟨r0, h0, rfl⟩ := List.mem_map.mp hr
  exact ⟨r0, h0, (hg r0).1, (hg r0).2⟩

/-- C7: every embedded operation preserves the invariant that each
non-null `from_pantry` reference resolves to a pantry item of the same
list; and after a successful `deletePantryItem` no content row of the list
still references the deleted pantry item and its pantry row is gone (both
removals are part of the same single state update). -/
theorem ops_preserve_from_pantry_integrity :
    (∀ (op : Op) (db db' : Db), Inv db → applyOp op db = .ok db' →
      Inv db') ∧
    (∀ (db : Db) (u l i : Nat) (db' : Db),
      delete_pantry_item db u l i = .ok db' →
      (∀ r ∈ db'.lists_content, ¬(r.list = l ∧ r.from_pantry = some i)) ∧
      (∀ pr ∈ db'.pantry_content, ¬(pr.list = l ∧ pr.item = i))) := by
  constructor
  · intro op db db' hInv h
    cases op with
    | createList u n =>
      cases hcr : create_list db u n with
      | error e =>
        simp only [applyOp, hcr, Except.map] at h
        cases h
      | ok p =>
        simp only [applyOp, hcr, Except.map] at h
        cases h
        unfold create_list at hcr
        by_cases hb : ((db.lists.filter
            (fun l2 => l2.owner == u && l2.name == n)).length == 0) = true
        · rw [if_pos hb] at hcr
          cases hcr
          exact hInv
        · rw [if_neg hb] at hcr
          cases hcr
    | addItem u l n a now =>
      cases hc : check_list db u l true with
      | error e =>
        simp only [applyOp, add_list, hc, bind_err, Except.map] at h
        cases h
      | ok un =>
        cases un
        simp only [applyOp, add_list, hc, bind_ok, Except.map] at h
        cases h
        intro r hr p hfp
        rcases List.mem_append.mp hr with hr | hr
        · exact hInv r hr p hfp
        · rw [List.mem_singleton.mp hr] at hfp
          simp at hfp
    | updateItem u l i n a =>
      cases hc : check_list db u l true with
      | error e =>
        simp only [applyOp, update_item, hc, bind_err] at h
        cases h
      | ok un =>
        cases un
        simp only [applyOp, update_item, hc, bind_ok] at h
        have hg1 : ∀ (nn : String) (r : ContentRow),
            ((fun r => if r.list == l && r.id == i then { r with name := nn }
              else r) r).from_pantry = r.from_pantry ∧
            ((fun r => if r.list == l && r.id == i then { r with name := nn }
              else r) r).list = r.list := by
          intro nn r
          by_cases hb : (r.list == l && r.id == i) = true <;> simp [hb]
        have hg2 : ∀ (aa : String) (r : ContentRow),
            ((fun r => if r.list == l && r.id == i then
              { r with amount := some aa } else r) r).from_pantry =
                r.from_pantry ∧
            ((fun r => if r.list == l && r.id == i then
              { r with amount := some aa } else r) r).list = r.list := by
          intro aa r
          by_cases hb : (r.list == l && r.id == i) = true <;> simp [hb]
        cases n with
        | none =>
          cases a with
          | none =>
            dsimp only at h
            cases h
            exact hInv
          | some aa =>
            dsimp only at h
            cases h
            refine @inv_general db _ ?_ (fun pr hpr => ⟨pr, hpr, rfl, rfl⟩) hInv
            intro r hr p hfp
            obtain ⟨r0, h0, ef, el⟩ :=
              content_map_preserves _ (hg2 aa) hr
            exact ⟨r0, h0, by rw [← ef, hfp], el.symm⟩
        | some nn =>
          cases a with
          | none =>
            dsimp only at h
            cases h
            refine @inv_general db _ ?_ (fun pr hpr => ⟨pr, hpr, rfl, rfl⟩) hInv
            intro r hr p hfp
            obtain ⟨r0, h0, ef, el⟩ :=
              content_map_preserves _ (hg1 nn) hr
            exact ⟨r0, h0, by rw [← ef, hfp], el.symm⟩
          | some aa =>
            dsimp only at h
            cases h
            refine @inv_general db _ ?_ (fun pr hpr => ⟨pr, hpr, rfl, rfl⟩) hInv
            intro r hr p hfp
            obtain ⟨r1, h1, ef1, el1⟩ :=
              content_map_preserves _ (hg2 aa) hr
            obtain ⟨r0, h0, ef0, el0⟩ :=
              content_map_preserves _ (hg1 nn) h1
            exact ⟨r0, h0, by rw [← ef0, ← ef1, hfp],
              by rw [el1, el0]⟩
    | deleteItem u l i =>
      cases hc : check_list db u l true with
      | error e =>
        simp only [applyOp, delete_item, hc, bind_err] at h
        cases h
      | ok un =>
        cases un
        simp only [applyOp, delete_item, hc, bind_ok] at h
        cases h
        refine @inv_general db _ ?_ ?_ hInv
        · intro r hr p hfp
          exact ⟨r, (List.mem_filter.mp hr).1, hfp, rfl⟩
        · intro pr hpr
          dsimp only
          cases hf : db.lists_content.find?
              (fun r => r.list == l && r.id == i) with
          | none => exact ⟨pr, hpr, rfl, rfl⟩
          | some row =>
            dsimp only
            cases hfp2 : row.from_pantry with
            | none => exact ⟨pr, hpr, rfl, rfl⟩
            | some p =>
              dsimp only
              by_cases hb : (pr.item == p) = true
              · refine ⟨{ pr with amount := pr.amount + credit_of row },
                  ?_, rfl, rfl⟩
                have hmem := List.mem_map_of_mem (fun pr : PantryRow =>
                  if pr.item == p then
                    { pr with amount := pr.amount + credit_of row }
                  else pr) hpr
                simpa [hb] using hmem
              · refine ⟨pr, ?_, rfl, rfl⟩
                have hmem := List.mem_map_of_mem (fun pr : PantryRow =>
                  if pr.item == p then
                    { pr with amount := pr.amount + credit_of row }
                  else pr) hpr
                simpa [hb] using hmem
    | deleteList u l =>
      cases ho : is_owner db u l with
      | error e =>
        simp only [applyOp, delete_list, ho, bind_err] at h
        cases h
      | ok un =>
        cases un
        simp only [applyOp, delete_list, ho, bind_ok] at h
        cases h
        refine @inv_general db _ ?_ (fun pr hpr => ⟨pr, hpr, rfl, rfl⟩) hInv
        intro r hr p hfp
        exact ⟨r, (List.mem_filter.mp hr).1, hfp, rfl⟩
    | setPublic u l =>
      cases ho : is_owner db u l with
      | error e =>
        simp only [applyOp, set_public, ho, bind_err] at h
        cases h
      | ok un =>
        cases un
        simp only [applyOp, set_public, ho, bind_ok] at h
        cases h
        exact hInv
    | removePublic u l =>
      cases ho : is_owner db u l with
      | error e =>
        simp only [applyOp, remove_public, ho, bind_err] at h
        cases h
      | ok un =>
        cases un
        simp only [applyOp, remove_public, ho, bind_ok] at h
        cases h
        exact hInv
    | addPantry u l n t =>
      cases hc : check_list db u l true with
      | error e =>
        simp only [applyOp, add_to_pantry, hc, bind_err] at h
        cases h
      | ok un =>
        cases un
        simp only [applyOp, add_to_pantry, hc, bind_ok] at h
        cases h
        refine @inv_general db _ (fun r hr p hfp => ⟨r, hr, hfp, rfl⟩) ?_ hInv
        intro pr hpr
        exact ⟨pr, List.mem_append_left _ hpr, rfl, rfl⟩
    | editPantry u l i a t =>
      cases hc : check_list db u l true with
      | error e =>
        simp only [applyOp, set_pantry_item, hc, bind_err] at h
        cases h
      | ok un =>
        cases un
        simp only [applyOp, set_pantry_item, hc, bind_ok] at h
        cases h
        refine @inv_general db _ (fun r hr p hfp => ⟨r, hr, hfp, rfl⟩) ?_ hInv
        intro pr hpr
        have hg : ∀ pr : PantryRow,
            ((fun r => if r.list == l && r.item == i then
              { r with amount := a.getD r.amount,
                       target := t.getD r.target } else r) pr).item =
              pr.item ∧
            ((fun r => if r.list == l && r.item == i then
              { r with amount := a.getD r.amount,
                       target := t.getD r.target } else r) pr).list =
              pr.list := by
          intro pr
          by_cases hb : (pr.list == l && pr.item == i) = true <;> simp [hb]
        exact ⟨_, List.mem_map_of_mem _ hpr, (hg pr).1, (hg pr).2⟩
    | deletePantry u l i =>
      cases hc : check_list db u l true with
      | error e =>
        simp only [applyOp, delete_pantry_item, hc, bind_err] at h
        cases h
      | ok un =>
        cases un
        simp only [applyOp, delete_pantry_item, hc, bind_ok] at h
        cases h
        intro r hr p hfp
        have hr' := List.mem_filter.mp hr
        obtain ⟨pr, hpr, hit, hlst⟩ := hInv r hr'.1 p hfp
        refine ⟨pr, List.mem_filter.mpr ⟨hpr, ?_⟩, hit, hlst⟩
        cases hbb : (pr.item == i && pr.list == l) with
        | false => simp [hbb]
        | true =>
          exfalso
          simp only [Bool.and_eq_true, beq_iff_eq] at hbb
          have hpi : p = i := by rw [← hit, hbb.1]
          have h1 : r.from_pantry = some i := by rw [hfp, hpi]
          have h2 : r.list = l := by rw [← hlst, hbb.2]
          have hcond := hr'.2
          simp [h1, h2] at hcond
    | refill u l =>
      cases hc : check_list db u l true with
      | error e =>
        simp only [applyOp, refill_pantry, hc, bind_err] at h
        cases h
      | ok un =>
        cases un
        simp only [applyOp, refill_pantry, hc, bind_ok] at h
        cases h
        intro r hr p hfp
        rcases List.mem_append.mp hr with hr | hr
        · exact hInv r hr p hfp
        · obtain ⟨pr2, hpr2, hls, hnm, ham, hfp2⟩ := mem_refill_new_rows hr
          have hpr2' := (List.mem_filter.mp hpr2).1
          have hpi : p = pr2.item := by
            rw [hfp2] at hfp
            exact (Option.some.inj hfp).symm
          exact ⟨pr2, hpr2', hpi.symm, hls.symm⟩
  · intro db u l i db' h
    cases hc : check_list db u l true with
    | error e =>
      simp only [delete_pantry_item, hc, bind_err] at h
      cases h
    | ok un =>
      cases un
      simp only [delete_pantry_item, hc, bind_ok] at h
      cases h
      constructor
      · rintro r hr ⟨hl, hfp⟩
        have hcond := (List.mem_filter.mp hr).2
        simp [hfp, hl] at hcond
      · rintro pr hpr ⟨hl, hit⟩
        have hcond := (List.mem_filter.mp hpr).2
        simp [hit, hl] at hcond

/-- Database with list 0 owned by 7, as produced by `createList` from the
empty database. -/
def c7Db : Db := ⟨[⟨0, 7, "l", none⟩], [], [], [], [], 1, 0, 0⟩

theorem ops_preserve_from_pantry_integrity_witness : Inv c7Db :=
  ops_preserve_from_pantry_integrity.1 (.createList 7 "l") Db.empty c7Db
    (by intro r hr p hfp; cases hr) (by decide)


/-! ### C9: non-negativity of pantry amounts -/

/-- States c9Db1 -> c9Db2 -> c9Db3 of the run that drives a pantry amount
negative: create a list, add a pantry item, edit its amount to -1. -/
def c9Db1 : Db := ⟨[⟨0, 7, "l", none⟩], [], [], [], [], 1, 0, 0⟩

def c9Db2 : Db :=
  ⟨[⟨0, 7, "l", none⟩], [], [], [⟨0, 0, "eggs", 0, 5⟩], [], 1, 0, 1⟩

def c9Db3 : Db :=
  ⟨[⟨0, 7, "l", none⟩], [], [], [⟨0, 0, "eggs", -1, 5⟩], [], 1, 0, 1⟩

/-- C9 counterexample: a reachable state holds a pantry item with a
negative current amount — `editPantryItem` passes the supplied amount
through unchecked, so the non-negativity claim fails. -/
theorem pantry_amount_negative_reachable_cex :
    Reachable c9Db3 ∧ ∃ pr ∈ c9Db3.pantry_content, pr.amount < 0 := by
  constructor
  · exact .step (.editPantry 7 0 0 (some (-1)) none) c9Db2 c9Db3
      (.step (.addPantry 7 0 "eggs" 5) c9Db1 c9Db2
        (.step (.createList 7 "l") Db.empty c9Db1 .init (by decide))
        (by decide))
      (by decide)
  · exact ⟨⟨0, 0, "eggs", -1, 5⟩, by decide, by decide⟩

/-- Inputs that respect non-negativity: any amount supplied to
`editPantryItem` is >= 0, and the credit a `deleteItem` would add (the
parsed amount of the addressed row) is >= 0.  All other operations are
unrestricted. -/
def NonNegInputs (op : Op) (db : Db) : Prop :=
  match op with
  | .editPantry _ _ _ amount _ => ∀ a : Int, amount = some a → 0 ≤ a
  | .deleteItem _ l i =>
    ∀ row, db.lists_content.find? (fun r => r.list == l && r.id == i) =
      some row → 0 ≤ credit_of row
  | _ => True

/-- C9 amended: pantry amounts stay non-negative under every operation
provided the operation's inputs are non-negative (edits supply amounts
>= 0 and delete credits parse to >= 0); without that proviso the property
fails, since `editPantryItem` and the credit-back add unchecked integers. -/
theorem pantry_nonneg_preserved (op : Op) (db db' : Db)
    (h0 : ∀ pr ∈ db.pantry_content, 0 ≤ pr.amount)
    (hin : NonNegInputs op db)
    (h : applyOp op db = .ok db') :
    ∀ pr ∈ db'.pantry_content, 0 ≤ pr.amount := by
  cases op with
  | createList u n =>
    cases hcr : create_list db u n with
    | error e =>
      simp only [applyOp, hcr, Except.map] at h
      cases h
    | ok p =>
      simp only [applyOp, hcr, Except.map] at h
      cases h
      unfold create_list at hcr
      by_cases hb : ((db.lists.filter
          (fun l2 => l2.owner == u && l2.name == n)).length == 0) = true
      · rw [if_pos hb] at hcr
        cases hcr
        exact h0
      · rw [if_neg hb] at hcr
        cases hcr
  | addItem u l n a now =>
    cases hc : check_list db u l true with
    | error e =>
      simp only [applyOp, add_list, hc, bind_err, Except.map] at h
      cases h
    | ok un =>
      cases un
      simp only [applyOp, add_list, hc, bind_ok, Except.map] at h
      cases h
      exact h0
  | updateItem u l i n a =>
    cases hc : check_list db u l true with
    | error e =>
      simp only [applyOp, update_item, hc, bind_err] at h
      cases h
    | ok un =>
      cases un
      simp only [applyOp, update_item, hc, bind_ok] at h
      cases h
      exact h0
  | deleteItem u l i =>
    cases hc : check_list db u l true with
    | error e =>
      simp only [applyOp, delete_item, hc, bind_err] at h
      cases h
    | ok un =>
      cases un
      simp only [applyOp, delete_item, hc, bind_ok] at h
      cases h
      have key : ∀ pr ∈ ((match db.lists_content.find?
          (fun r => r.list == l && r.id == i) with
        | none => db.pantry_content
        | some row =>
          match row.from_pantry with
          | none => db.pantry_content
          | some p =>
            db.pantry_content.map (fun pr : PantryRow =>
              if pr.item == p then
                { pr with amount := pr.amount + credit_of row }
              else pr)) : List PantryRow), (0 : Int) ≤ pr.amount := by
        cases hf : db.lists_content.find?
            (fun r => r.list == l && r.id == i) with
        | none => exact h0
        | some row =>
          dsimp only
          cases hfp : row.from_pantry with
          | none => exact h0
          | some p =>
            dsimp only
            intro pr hpr
            obtain ⟨pr0, hm0, rfl⟩ := List.mem_map.mp hpr
            by_cases hb : (pr0.item == p) = true
            · rw [if_pos hb]
              have hcred : 0 ≤ credit_of row := hin row hf
              have hamt := h0 pr0 hm0
              dsimp only
              omega
            · rw [if_neg hb]
              exact h0 pr0 hm0
      exact key
  | deleteList u l =>
    cases ho : is_owner db u l with
    | error e =>
      simp only [applyOp, delete_list, ho, bind_err] at h
      cases h
    | ok un =>
      cases un
      simp only [applyOp, delete_list, ho, bind_ok] at h
      cases h
      exact h0
  | setPublic u l =>
    cases ho : is_owner db u l with
    | error e =>
      simp only [applyOp, set_public, ho, bind_err] at h
      cases h
    | ok un =>
      cases un
      simp only [applyOp, set_public, ho, bind_ok] at h
      cases h
      exact h0
  | removePublic u l =>
    cases ho : is_owner db u l with
    | error e =>
      simp only [applyOp, remove_public, ho, bind_err] at h
      cases h
    | ok un =>
      cases un
      simp only [applyOp, remove_public, ho, bind_ok] at h
      cases h
      exact h0
  | addPantry u l n t =>
    cases hc : check_list db u l true with
    | error e =>
      simp only [applyOp, add_to_pantry, hc, bind_err] at h
      cases h
    | ok un =>
      cases un
      simp only [applyOp, add_to_pantry, hc, bind_ok] at h
      cases h
      intro pr hpr
      rcases List.mem_append.mp hpr with hm | hm
      · exact h0 pr hm
      · rw [List.mem_singleton.mp hm]
  | editPantry u l i a t =>
    cases hc : check_list db u l true with
    | error e =>
      simp only [applyOp, set_pantry_item, hc, bind_err] at h
      cases h
    | ok un =>
      cases un
      simp only [applyOp, set_pantry_item, hc, bind_ok] at h
      cases h
      intro pr hpr
      obtain ⟨pr0, hm0, rfl⟩ := List.mem_map.mp hpr
      by_cases hb : (pr0.list == l && pr0.item == i) = true
      · rw [if_pos hb]
        dsimp only
        cases a with
        | none => exact h0 pr0 hm0
        | some av =>
          have : (0 : Int) ≤ av := hin av rfl
          simpa using this
      · rw [if_neg hb]
        exact h0 pr0 hm0
  | deletePantry u l i =>
    cases hc : check_list db u l true with
    | error e =>
      simp only [applyOp, delete_pantry_item, hc, bind_err] at h
      cases h
    | ok un =>
      cases un
      simp only [applyOp, delete_pantry_item, hc, bind_ok] at h
      cases h
      intro pr hpr
      exact h0 pr (List.mem_filter.mp hpr).1
  | refill u l =>
    cases hc : check_list db u l true with
    | error e =>
      simp only [applyOp, refill_pantry, hc, bind_err] at h
      cases h
    | ok un =>
      cases un
      simp only [applyOp, refill_pantry, hc, bind_ok] at h
      cases h
      exact h0

theorem pantry_nonneg_preserved_witness :
    (0 : Int) ≤ (⟨0, 0, "eggs", 0, 5⟩ : PantryRow).amount :=
  pantry_nonneg_preserved (.addPantry 7 0 "eggs" 5) c9Db1 c9Db2
    (by intro pr hpr; cases hpr) trivial (by decide)
    ⟨0, 0, "eggs", 0, 5⟩ (by decide)

/-! ### C3: deleteList's cascade -/

/-- States of the run create list, add pantry item "eggs" (target 5),
refill: list 0 with one pending refill row linked to pantry item 0. -/
def c3Db1 : Db := ⟨[⟨0, 7, "l", none⟩], [], [], [], [], 1, 0, 0⟩

def c3Db2 : Db :=
  ⟨[⟨0, 7, "l", none⟩], [], [], [⟨0, 0, "eggs", 0, 5⟩], [], 1, 0, 1⟩

def c3Db : Db :=
  ⟨[⟨0, 7, "l", none⟩], [], [⟨0, 0, "eggs", some "5", some 0⟩],
    [⟨0, 0, "eggs", 0, 5⟩], [], 1, 1, 1⟩

/-- `c3Db` after the owner deletes list 0: shares, items, history and the
list row are gone — but the pantry row remains. -/
def c3Db' : Db := ⟨[], [], [], [⟨0, 0, "eggs", 0, 5⟩], [], 1, 1, 1⟩

/-- C3, evaluated at the failing input: on a reachable state holding one
pantry row for list 0, the owner's `deleteList` succeeds and removes the
share, item, history and list rows, yet the pantry row of the deleted
list is still present afterwards (`delete_list` issues no DELETE against
`pantry_content`); the subsequent `readList`/`getPantry` NotFound part of
the claim does hold. -/
theorem delete_list_keeps_pantry_rows :
    Reachable c3Db ∧
    delete_list c3Db 7 0 = .ok c3Db' ∧
    c3Db'.pantry_content = [⟨0, 0, "eggs", 0, 5⟩] ∧
    c3Db'.lists = [] ∧ c3Db'.lists_content = [] ∧
    c3Db'.list_sharing = [] ∧ c3Db'.history = [] ∧
    read_list c3Db' 7 0 = .error .NotFound ∧
    get_pantry c3Db' 7 0 = .error .NotFound := by
  refine ⟨?_, by decide, by decide, by decide, by decide, by decide,
    by decide, by decide, by decide⟩
  exact .step (.refill 7 0) c3Db2 c3Db
    (.step (.addPantry 7 0 "eggs" 5) c3Db1 c3Db2
      (.step (.createList 7 "l") Db.empty c3Db1 .init (by decide))
      (by decide))
    (by decide)


end Kabalist
